import Mathlib

/-!
Verification of the training driver `scripts/image_train.py` of the
`decomp_diffusion` repository.

Strings of the Python code are embedded as `List Char` (a Python `str` is a
sequence of characters); Python `int` is embedded as `Int`/`Nat`; a Python
function that can raise an exception is embedded as a function into
`Except PyError _` whose error constructors name the Python exception class
actually raised.  Modules of the repository that are imported by the driver
but whose source is not available (the gaussian-diffusion schedule, the EMA
update of the training loop) are modelled from the specification; each such
definition carries a doc comment starting with `Modelled from the spec:`.
-/

/-- The kinds of Python exceptions the embedded driver code can raise:
`assert` statements raise `AssertionError`, out-of-range sequence indexing
raises `IndexError`, `int(...)` on a malformed string raises `ValueError`,
and `dict[...]` on a missing key raises `KeyError`. -/
inductive PyError where
  | assertionError
  | indexError
  | valueError
  | keyError
deriving DecidableEq, Repr

/-- The character for a single decimal digit `d < 10` (as produced by
Python `str` of an integer). -/
def digitChar (d : Nat) : Char :=
  match d with
  | 0 => '0' | 1 => '1' | 2 => '2' | 3 => '3' | 4 => '4'
  | 5 => '5' | 6 => '6' | 7 => '7' | 8 => '8' | 9 => '9'
  | _ => '*'

/-- Fuel-driven decimal printer for `Nat` (the digits of Python `str(n)`):
least-significant digit last. -/
def natDecimalAux : Nat → Nat → List Char
  | 0, _ => []
  | fuel + 1, n =>
    if n < 10 then [digitChar n]
    else natDecimalAux fuel (n / 10) ++ [digitChar (n % 10)]

/-- The decimal representation of a natural number, as Python `str(n)`
produces it. -/
def natDecimal (n : Nat) : List Char := natDecimalAux (n + 1) n

/-- Python `str(k)` for an `int` `k`: a leading `'-'` for negative values,
then the decimal digits of the absolute value. -/
def intDecimal (k : Int) : List Char :=
  if k < 0 then '-' :: natDecimal k.natAbs else natDecimal k.natAbs

/-- Python `str` of an `int`-or-`None` value, as interpolated by an
f-string (`str(None) = "None"`). -/
def pyStrOptInt : Option Int → List Char
  | none => "None".data
  | some k => intDecimal k

/-- The whitespace characters stripped by Python `int(str)` before parsing
(the ASCII ones; exotic Unicode whitespace is not reachable from the
driver's inputs). -/
def isSpaceChar (c : Char) : Bool :=
  c = ' ' || c = '\t' || c = '\n' || c = '\r'

/-- Strip leading and trailing whitespace, as Python `int(str)` does. -/
def stripSpaces (l : List Char) : List Char :=
  ((l.dropWhile isSpaceChar).reverse.dropWhile isSpaceChar).reverse

/-- The numeric value of a list of decimal digit characters (most
significant first), i.e. what Python `int` computes on a plain digit
string. -/
def digitsToNat (l : List Char) : Nat :=
  l.foldl (fun a c => 10 * a + (c.toNat - 48)) 0

/-- Parse a nonempty all-digit string to a natural number; `none`
otherwise. -/
def digitsNat? (l : List Char) : Option Nat :=
  if l ≠ [] ∧ l.all Char.isDigit then some (digitsToNat l) else none

/-- Python `int(s)` on a string: strip whitespace, accept an optional
`'-'`/`'+'` sign followed by a nonempty digit string, fail (`ValueError`,
reported as `none` here) otherwise.  (Underscore digit separators cannot
occur in the strings this driver passes to `int`, since the parsed slice
never contains `'_'`.) -/
def pyIntOfChars (l : List Char) : Option Int :=
  let s := stripSpaces l
  if s.head? = some '-' then (digitsNat? (s.drop 1)).map (fun n => -(n : Int))
  else if s.head? = some '+' then (digitsNat? (s.drop 1)).map (fun n => (n : Int))
  else (digitsNat? s).map (fun n => (n : Int))

/-- The characters strictly after the last `'_'` of `l`, or `none` when `l`
has no `'_'`.  This is the denotation of the backward scanning loop of
`parse_epoch` (`while ckpt_path[start_idx] != '_' : start_idx -= 1`):
scanning below index `0` raises `IndexError`, reported as `none` here. -/
def afterLastUnderscore (l : List Char) : Option (List Char) :=
  if '_' ∈ l then some ((l.reverse.takeWhile (fun c => c ≠ '_')).reverse) else none

/-- `parse_epoch` of `scripts/image_train.py`:

    assert ckpt_path[-3:] == '.pt'
    end_idx = -3
    start_idx = end_idx
    while ckpt_path[start_idx] != '_':
        start_idx -= 1
    start_idx += 1
    epoch = int(ckpt_path[start_idx : end_idx])
    return epoch

The `assert` compares the last three characters with `".pt"` (for a path
shorter than three characters the slice is the whole string, which cannot
be equal).  The loop starts at the `'.'` of the asserted `".pt"` suffix and
scans backwards for `'_'`, raising `IndexError` when it runs off the front
of the string; the slice between the found `'_'` and the suffix is passed
to `int`, which raises `ValueError` when it is not an integer literal. -/
def parse_epoch (ckpt_path : List Char) : Except PyError Int :=
  if ckpt_path.drop (ckpt_path.length - 3) = ".pt".data then
    match afterLastUnderscore (ckpt_path.take (ckpt_path.length - 3)) with
    | none => .error .indexError
    | some numChars =>
      match pyIntOfChars numChars with
      | none => .error .valueError
      | some epoch => .ok epoch
  else .error .assertionError

/-- The `DEFAULT_IM` dictionary of `scripts/image_train.py`, as an
association list in source order. -/
def DEFAULT_IM : List (List Char × List Char) :=
  [("clevr".data, "sample_images/clevr_im_10.png".data),
   ("mnist".data, "sample_images/mnist_digit_4.png".data),
   ("clevr_toy".data, "im_8_clevr_toy.png".data),
   ("celebahq".data, "im_19_celebahq.jpg".data),
   ("falcor3d".data, "im_10_falcor3d.png".data),
   ("kitti".data, "im_41_kitti.png".data),
   ("vkitti".data, "im_12_vkitti.jpg".data),
   ("comb_kitti".data, "im_41_kitti.png".data),
   ("tetris".data, "im_6_tetris.png".data),
   ("anime".data, "im_8_anime.jpg".data),
   ("faces".data, "im_19_celebahq.jpg".data)]

/-- Python `DEFAULT_IM[dataset]`: `some` of the stored value, `none` when
the key is absent (in which case the subscript raises `KeyError`). -/
def defaultImLookup (dataset : List Char) : Option (List Char) :=
  (DEFAULT_IM.filter (fun p => p.1 = dataset)).head?.map (fun p => p.2)

/-- The fields of the parsed argparse namespace that the embedded part of
`main` reads.  `num_images` is the value after line 44's
`int(args.num_images) if (args.num_images is not None) else None`. -/
structure Args where
  log_folder : Option (List Char)
  model_desc : List Char
  num_images : Option Int
  predict_xstart : Bool
  dataset : List Char
  image_size : Int
  num_components : Int
  num_run : Int
  emb_dim : Int
  p_uncond : ℚ
  extra_desc : List Char
  resume_checkpoint : List Char

/-- One `json.dump` performed by `main`: the file name it writes inside the
log directory and the keys of the dictionary it serialises. -/
structure Artifact where
  name : List Char
  keys : List String
deriving DecidableEq

/-- The arguments `main` passes to the external `run_loop` (the ones the
claims are about). -/
structure RunLoopCall where
  save_desc : List Char
  start_epoch : Int
  p_uncond : ℚ
  default_im : List Char

/-- Observable effects of one execution of `main`: the resolved log
directory, the save description, the JSON artifacts written (in order),
the checkpoint file whose state dict was loaded into the model (if any),
and either the `run_loop` invocation or the Python exception that aborted
`main` first. -/
structure MainTrace where
  log_folder : List Char
  save_desc : List Char
  artifacts : List Artifact
  loaded_checkpoint : Option (List Char)
  outcome : Except PyError RunLoopCall

/-- The f-string of line 60 of `main`:
`f'{model_desc}_{dataset}_{num_images}_{predict_desc}_emb_{args.emb_dim}_n{num_components}_v{num_run}'`
with `predict_desc = 'xstart' if predict_xstart else 'eps'` (line 59). -/
def baseDescOf (a : Args) : List Char :=
  let predict_desc := if a.predict_xstart then "xstart".data else "eps".data
  a.model_desc ++ "_".data ++ a.dataset ++ "_".data ++ pyStrOptInt a.num_images
    ++ "_".data ++ predict_desc ++ "_emb_".data ++ intDecimal a.emb_dim
    ++ "_n".data ++ intDecimal a.num_components ++ "_v".data ++ intDecimal a.num_run

/-- Lines 60-65 of `main`: the save description after the conditional
`'_free'` tag (appended when `p_uncond > 0`) and the conditional extra
description (appended when `extra_desc` is nonempty). -/
def saveDescOf (a : Args) : List Char :=
  let save_desc := baseDescOf a
  let save_desc := if 0 < a.p_uncond then save_desc ++ "_free".data else save_desc
  if 0 < a.extra_desc.length then save_desc ++ "_".data ++ a.extra_desc else save_desc

/-- Lines 67-68 of `main`: the log directory defaults to
`'logs_' + save_desc` when no `--log_folder` argument was given. -/
def logFolderOf (a : Args) : List Char :=
  match a.log_folder with
  | none => "logs_".data ++ saveDescOf a
  | some f => f

/-- Lines 75-80 of `main`: the training model defaults are selected by
`model_desc` among `unet_model_defaults()`, `unet_model_cls_defaults()`
and `model_defaults()`; only the key lists (parameters `umk uck mdk`)
matter to the claims, the external dictionaries themselves being outside
the visible source. -/
def trainingModelKeys (model_desc : List Char) (umk uck mdk : List String) : List String :=
  if model_desc = "unet_model".data then umk
  else if model_desc = "unet_model_cls".data then uck
  else mdk

/-- The driver `main` of `scripts/image_train.py`, lines 39-119, restricted
to its observable effects.  The key lists of the external default
dictionaries (`unet_model_defaults`, `unet_model_cls_defaults`,
`model_defaults`, `diffusion_defaults`, `training_defaults`) are parameters
`umk uck mdk dk tk`, since those functions live outside the visible source.
External collaborator calls with no bearing on the claims (logger and
distributed setup, model and diffusion construction, `load_data`) are not
recorded.  The order of events follows the source: the save description
(lines 59-65), the log folder (lines 67-68), the `arguments.json` dump
(lines 93-95), the `DEFAULT_IM` lookup (line 108), the resume block
(lines 110-117), then `run_loop` (line 119). -/
def mainRun (a : Args) (umk uck mdk dk tk : List String) : MainTrace :=
  let save_desc := saveDescOf a
  let log_folder := logFolderOf a
  let relevant_keys := trainingModelKeys a.model_desc umk uck mdk ++ dk ++ tk
  let artifacts := [⟨"arguments.json".data, relevant_keys⟩]
  match defaultImLookup a.dataset with
  | none =>
    { log_folder := log_folder, save_desc := save_desc, artifacts := artifacts,
      loaded_checkpoint := none, outcome := .error .keyError }
  | some default_im =>
    if 0 < a.resume_checkpoint.length then
      match parse_epoch a.resume_checkpoint with
      | .error e =>
        { log_folder := log_folder, save_desc := save_desc, artifacts := artifacts,
          loaded_checkpoint := some a.resume_checkpoint, outcome := .error e }
      | .ok epoch =>
        { log_folder := log_folder, save_desc := save_desc, artifacts := artifacts,
          loaded_checkpoint := some a.resume_checkpoint,
          outcome := .ok ⟨save_desc, epoch, a.p_uncond, default_im⟩ }
    else
      { log_folder := log_folder, save_desc := save_desc, artifacts := artifacts,
        loaded_checkpoint := none, outcome := .ok ⟨save_desc, 0, a.p_uncond, default_im⟩ }

/-- Error raised by the schedule constructor on an invalid step count or
an unknown schedule kind (§4.1's `InvalidScheduleError`). -/
inductive ScheduleError where
  | invalidSchedule
deriving DecidableEq

/-- Modelled from the spec: the `linear` variance schedule of the external
`create_gaussian_diffusion` (§4.1 of the spec; the standard DDPM linear
schedule the spec's T=1000 scenario values come from): the betas run
linearly from `0.0001` to `0.02` over `T` points (`numpy.linspace`; for
`T = 1` the single point is the start value, matching division by zero
yielding `0` in `ℚ`).  Every beta lies in `[0.0001, 0.02] ⊆ (0,1)`, as
§3's invariant requires of the schedule values, for every accepted `T`. -/
def betaLin (T t : Nat) : ℚ :=
  let beta_start : ℚ := 1 / 10000
  let beta_end : ℚ := 1 / 50
  beta_start + t * (beta_end - beta_start) / ((T : ℚ) - 1)

/-- Modelled from the spec: the cumulative product
`ᾱ_t = Π_{s ≤ t} (1 - β_s)` of the linear schedule (§4.1: "derived
cumulative products"). -/
def alphaBarQ (T t : Nat) : ℚ :=
  ∏ s ∈ Finset.range (t + 1), (1 - betaLin T s)

/-- Modelled from the spec: the linear-schedule branch of the constructor:
for `T ≤ 0` it fails with `InvalidScheduleError` (§4.1), otherwise it
returns the length-`T` array of cumulative products `ᾱ_0, …, ᾱ_{T-1}`
(strictly decreasing for every accepted `T`, per §4.1's guarantee). -/
def linearAlphaBars (T : Nat) : Except ScheduleError (List ℚ) :=
  if T = 0 then .error .invalidSchedule
  else .ok ((List.range T).map (fun t => alphaBarQ T t))

/-- Modelled from the spec: the schedule construction of
`create_gaussian_diffusion` (§4.1): given a total step count and a
schedule kind, produce the derived cumulative products, failing with
`InvalidScheduleError` if `T ≤ 0` or an unknown kind is requested.  The
spec's words give a formula for no kind other than `linear` (`cosine`
appears only as an example of a kind name), so `linear` is the kind this
constructor knows; all others take the §4.1 unknown-kind error path. -/
def createSchedule (kind : List Char) (T : Nat) : Except ScheduleError (List ℚ) :=
  if kind = "linear".data then linearAlphaBars T
  else .error .invalidSchedule

/-- The numerator product `Π_{s < n} (9989001 - 199 s)` of the T = 1000
linear schedule's cumulative products over the common denominator
`9990000`, computed in `Nat`. -/
def schedProdN : Nat → Nat
  | 0 => 1
  | n + 1 => schedProdN n * (9989001 - 199 * n)

/-- Modelled from the spec: the forward noising operation of the diffusion
process (§4.2): `noise(x0, t)` with injected noise `ε` returns
`x_t = sqrt(ᾱ_t) * x0 + sqrt(1 - ᾱ_t) * ε`. The per-pixel computation is
modelled on real scalars (it is applied pointwise to tensors). -/
noncomputable def noiseFwd (T t : Nat) (x0 eps : ℝ) : ℝ :=
  Real.sqrt ((alphaBarQ T t : ℚ) : ℝ) * x0
    + Real.sqrt (1 - ((alphaBarQ T t : ℚ) : ℝ)) * eps

/-- Modelled from the spec: the clean-input reconstruction inside
`denoise_step` when the model prediction is the noise `ε` (§4.2, §8
round-trip property): inverting the forward formula,
`x̂0 = (x_t - sqrt(1 - ᾱ_t) * ε) / sqrt(ᾱ_t)`. -/
noncomputable def predXstartFromEps (T t : Nat) (xt eps : ℝ) : ℝ :=
  (xt - Real.sqrt (1 - ((alphaBarQ T t : ℚ) : ℝ)) * eps)
    / Real.sqrt ((alphaBarQ T t : ℚ) : ℝ)

/-- Modelled from the spec: one EMA shadow update of the training loop
(§3, §8): `shadow' = rate * shadow + (1 - rate) * param`, applied
pointwise over the parameter set (indexed by `ι`). -/
def emaUpdate (ι : Type) (rate : ℚ) (shadow param : ι → ℚ) : ι → ℚ :=
  fun i => rate * shadow i + (1 - rate) * param i

/-- Modelled from the spec: the EMA shadow after a sequence of update
steps, one per element of `params` (the parameter values seen at each
step). -/
def emaRun (ι : Type) (rate : ℚ) (shadow : ι → ℚ) (params : List (ι → ℚ)) : ι → ℚ :=
  params.foldl (fun sh p => emaUpdate ι rate sh p) shadow

/-- The seeds of the two random number generators the driver touches at
module load (`th.manual_seed(0)` / `np.random.seed(0)`, lines 22-23);
`none` means the generator is in an arbitrary prior state. -/
structure RngState where
  torch_seed : Option Nat
  numpy_seed : Option Nat
deriving DecidableEq

/-- Module initialization of `scripts/image_train.py` (lines 21-23,
comment `fix randomness`): whatever the prior generator states were, both
seeds are set to the fixed value `0`. -/
def moduleInit (_s : RngState) : RngState :=
  { torch_seed := some 0, numpy_seed := some 0 }

/-- A concrete argparse namespace used by witness theorems: every field is
one of the parser's default or documented example values. -/
def sampleArgs : Args :=
  { log_folder := none
    model_desc := "unet_model".data
    num_images := some 10
    predict_xstart := false
    dataset := "clevr".data
    image_size := 64
    num_components := 4
    num_run := 0
    emb_dim := 64
    p_uncond := 0
    extra_desc := []
    resume_checkpoint := "model_250.pt".data }

example : parse_epoch "model_250.pt".data = .ok 250 := rfl
example : parse_epoch "ema_0.9999_4000.pt".data = .ok 4000 := rfl
example : parse_epoch "model.txt".data = .error .assertionError := rfl
example : parse_epoch "model.pt".data = .error .indexError := rfl
example : parse_epoch "model_x.pt".data = .error .valueError := rfl
example : parse_epoch "model_-5.pt".data = .ok (-5) := rfl

theorem digitChar_isDigit {d : Nat} (h : d < 10) : (digitChar d).isDigit = true := by
  interval_cases d <;> decide

theorem digitChar_toNat {d : Nat} (h : d < 10) : (digitChar d).toNat = 48 + d := by
  interval_cases d <;> decide

theorem digitsToNat_concat (l : List Char) (c : Char) :
    digitsToNat (l ++ [c]) = 10 * digitsToNat l + (c.toNat - 48) := by
  simp [digitsToNat, List.foldl_append]

theorem natDecimalAux_ne_nil (fuel n : Nat) : natDecimalAux (fuel + 1) n ≠ [] := by
  unfold natDecimalAux
  split
  · simp
  · simp

theorem natDecimalAux_isDigit :
    ∀ fuel n c, c ∈ natDecimalAux fuel n → c.isDigit = true := by
  intro fuel
  induction fuel with
  | zero => intro n c h; simp [natDecimalAux] at h
  | succ f ih =>
    intro n c h
    unfold natDecimalAux at h
    split at h
    · rename_i h10
      simp only [List.mem_singleton] at h
      exact h ▸ digitChar_isDigit h10
    · rw [List.mem_append] at h
      rcases h with h | h
      · exact ih _ _ h
      · simp only [List.mem_singleton] at h
        exact h ▸ digitChar_isDigit (Nat.mod_lt _ (by omega))

theorem natDecimalAux_val :
    ∀ fuel n, n < fuel → digitsToNat (natDecimalAux fuel n) = n := by
  intro fuel
  induction fuel with
  | zero => intro n h; omega
  | succ f ih =>
    intro n h
    unfold natDecimalAux
    split
    · rename_i h10
      simp [digitsToNat, digitChar_toNat h10]
    · rename_i h10
      rw [digitsToNat_concat, ih (n / 10) (by omega),
        digitChar_toNat (Nat.mod_lt _ (by omega) : n % 10 < 10)]
      omega

theorem natDecimal_ne_nil (n : Nat) : natDecimal n ≠ [] :=
  natDecimalAux_ne_nil n n

theorem natDecimal_isDigit {n : Nat} {c : Char} (h : c ∈ natDecimal n) :
    c.isDigit = true :=
  natDecimalAux_isDigit _ _ _ h

theorem digitsToNat_natDecimal (n : Nat) : digitsToNat (natDecimal n) = n :=
  natDecimalAux_val _ _ (Nat.lt_succ_self n)

theorem natDecimal_getLast? (n : Nat) :
    ∃ c, (natDecimal n).getLast? = some c ∧ c.isDigit = true := by
  unfold natDecimal natDecimalAux
  split
  · rename_i h10
    exact ⟨digitChar n, rfl, digitChar_isDigit h10⟩
  · exact ⟨digitChar (n % 10), List.getLast?_concat _,
      digitChar_isDigit (Nat.mod_lt _ (by omega))⟩

theorem intDecimal_getLast? (k : Int) :
    ∃ c, (intDecimal k).getLast? = some c ∧ c.isDigit = true := by
  obtain ⟨c, hc, hd⟩ := natDecimal_getLast? k.natAbs
  unfold intDecimal
  split
  · refine ⟨c, ?_, hd⟩
    obtain ⟨b, l, hbl⟩ : ∃ b l, natDecimal k.natAbs = b :: l := by
      cases hnil : natDecimal k.natAbs with
      | nil => exact absurd hnil (natDecimal_ne_nil _)
      | cons b l => exact ⟨b, l, rfl⟩
    rw [hbl] at hc ⊢
    rw [List.getLast?_cons_cons]
    exact hc
  · exact ⟨c, hc, hd⟩

theorem isSpaceChar_of_isDigit {c : Char} (h : c.isDigit = true) :
    isSpaceChar c = false := by
  cases hs : isSpaceChar c
  · rfl
  · exfalso
    have hs4 : c = ' ' ∨ c = '\t' ∨ c = '\n' ∨ c = '\r' := by
      simpa [isSpaceChar, or_assoc] using hs
    rcases hs4 with h1 | h1 | h1 | h1 <;> subst h1 <;> exact absurd h (by decide)

theorem dropWhile_eq_self_of_none {α : Type} {p : α → Bool} :
    ∀ {l : List α}, (∀ c ∈ l, p c = false) → l.dropWhile p = l
  | [], _ => rfl
  | x :: xs, h => by
    rw [List.dropWhile_cons]
    simp [h x (List.mem_cons_self x xs)]

theorem stripSpaces_of_noSpace {l : List Char}
    (h : ∀ c ∈ l, isSpaceChar c = false) : stripSpaces l = l := by
  unfold stripSpaces
  rw [dropWhile_eq_self_of_none h,
    dropWhile_eq_self_of_none (fun c hc => h c (List.mem_reverse.mp hc)),
    List.reverse_reverse]

theorem pyIntOfChars_digits {l : List Char} (hne : l ≠ [])
    (hd : ∀ c ∈ l, c.isDigit = true) :
    pyIntOfChars l = some (digitsToNat l : Int) := by
  have hstrip : stripSpaces l = l :=
    stripSpaces_of_noSpace (fun c hc => isSpaceChar_of_isDigit (hd c hc))
  obtain ⟨b, t, rfl⟩ : ∃ b t, l = b :: t := by
    cases l with
    | nil => exact absurd rfl hne
    | cons b t => exact ⟨b, t, rfl⟩
  have hb : b.isDigit = true := hd b (List.mem_cons_self b t)
  have hbm : b ≠ '-' := fun h => absurd (h ▸ hb) (by decide)
  have hbp : b ≠ '+' := fun h => absurd (h ▸ hb) (by decide)
  simp only [pyIntOfChars, hstrip]
  rw [if_neg (by simp [hbm]), if_neg (by simp [hbp]), digitsNat?,
    if_pos ⟨hne, by simpa using hd⟩]
  rfl

theorem pyIntOfChars_neg_digits {l : List Char} (hne : l ≠ [])
    (hd : ∀ c ∈ l, c.isDigit = true) :
    pyIntOfChars ('-' :: l) = some (-(digitsToNat l : Int)) := by
  have hstrip : stripSpaces ('-' :: l) = '-' :: l := by
    refine stripSpaces_of_noSpace ?_
    intro c hc
    rcases List.mem_cons.mp hc with h | h
    · subst h; rfl
    · exact isSpaceChar_of_isDigit (hd c h)
  simp only [pyIntOfChars, hstrip]
  rw [if_pos (by simp), List.drop_one, List.tail_cons, digitsNat?,
    if_pos ⟨hne, by simpa using hd⟩]
  rfl

theorem afterLastUnderscore_append {pre d : List Char} (h : '_' ∉ d) :
    afterLastUnderscore (pre ++ '_' :: d) = some d := by
  unfold afterLastUnderscore
  rw [if_pos (by simp)]
  congr 1
  rw [List.reverse_append, List.reverse_cons, List.append_assoc,
    List.singleton_append,
    List.takeWhile_append_of_pos (fun a ha => by
      simp only [ne_eq, decide_eq_true_eq]
      exact fun hx => h (hx ▸ List.mem_reverse.mp ha)),
    List.takeWhile_cons]
  simp

theorem parse_epoch_eq (q : List Char) :
    parse_epoch (q ++ ".pt".data) =
      match afterLastUnderscore q with
      | none => .error .indexError
      | some numChars =>
        match pyIntOfChars numChars with
        | none => .error .valueError
        | some epoch => .ok epoch := by
  unfold parse_epoch
  have hlen : (q ++ ".pt".data).length - 3 = q.length := by simp
  rw [hlen, List.drop_left, List.take_left, if_pos rfl]

theorem parse_epoch_not_pt {p : List Char} (h : ¬ ∃ q, p = q ++ ".pt".data) :
    parse_epoch p = .error .assertionError := by
  unfold parse_epoch
  rw [if_neg]
  intro hdrop
  exact h ⟨p.take (p.length - 3), by rw [← hdrop, List.take_append_drop]⟩

/-- C1: for every checkpoint path of the form `{save_dir}/model_{epoch}.pt`
or `{save_dir}/ema_{rate}_{epoch}.pt` — i.e. any prefix followed by `'_'`,
the decimal digits of a non-negative `epoch`, and `'.pt'` — `parse_epoch`
returns exactly that epoch (lossless round-trip of the epoch through the
filename); in particular `parse_epoch 'model_250.pt' = 250` and
`parse_epoch 'ema_0.9999_4000.pt' = 4000`. -/
theorem c1_parse_epoch_roundtrip :
    (∀ (pre : List Char) (epoch : Nat),
      parse_epoch (pre ++ '_' :: (natDecimal epoch ++ ".pt".data)) = .ok (epoch : Int))
    ∧ parse_epoch "model_250.pt".data = .ok 250
    ∧ parse_epoch "ema_0.9999_4000.pt".data = .ok 4000 := by
  refine ⟨?_, rfl, rfl⟩
  intro pre epoch
  have hnd : '_' ∉ natDecimal epoch := fun hm =>
    absurd (natDecimal_isDigit hm) (by decide)
  have hassoc : pre ++ '_' :: (natDecimal epoch ++ ".pt".data)
      = (pre ++ '_' :: natDecimal epoch) ++ ".pt".data := by simp
  rw [hassoc, parse_epoch_eq]
  simp only [afterLastUnderscore_append hnd,
    pyIntOfChars_digits (natDecimal_ne_nil _) (fun c hc => natDecimal_isDigit hc),
    digitsToNat_natDecimal]

/-- C9: `parse_epoch` performs no non-negativity check: for any prefix
followed by `'_'`, a minus sign, the decimal digits of `n`, and `'.pt'`,
it returns the negative integer `-n`; in particular
`parse_epoch 'model_-5.pt' = -5`. -/
theorem c9_parse_epoch_negative :
    (∀ (pre : List Char) (n : Nat),
      parse_epoch (pre ++ '_' :: ('-' :: natDecimal n ++ ".pt".data)) = .ok (-(n : Int)))
    ∧ parse_epoch "model_-5.pt".data = .ok (-5) := by
  refine ⟨?_, rfl⟩
  intro pre n
  have hnd : '_' ∉ '-' :: natDecimal n := by
    intro hm
    rcases List.mem_cons.mp hm with h | h
    · exact absurd h (by decide)
    · exact absurd (natDecimal_isDigit h) (by decide)
  have hassoc : pre ++ '_' :: ('-' :: natDecimal n ++ ".pt".data)
      = (pre ++ '_' :: ('-' :: natDecimal n)) ++ ".pt".data := by simp
  rw [hassoc, parse_epoch_eq]
  simp only [afterLastUnderscore_append hnd,
    pyIntOfChars_neg_digits (natDecimal_ne_nil _) (fun c hc => natDecimal_isDigit hc),
    digitsToNat_natDecimal]

/-- C2 counterexample: on a path that does not end in `.pt` the code's
failure is an `AssertionError` raised by the `assert` on line 123 — a
`CheckpointFormatError` class does not exist anywhere in the program, so
the failure is "some other kind of failure" than the claimed one. -/
theorem c2_counterexample :
    parse_epoch "model.txt".data = .error PyError.assertionError := rfl

/-- C2 (amended): a path that does not end in the `.pt` extension makes
`parse_epoch` fail with `AssertionError`; a path ending in `.pt` with no
`'_'` in the stem fails with `IndexError`; a path ending in `.pt` whose
field after the last `'_'` of the stem is not parseable by Python `int`
fails with `ValueError`.  (The code defines no `CheckpointFormatError`;
these three builtin exceptions are what is actually raised.) -/
theorem c2_parse_epoch_errors (p : List Char) :
    ((¬ ∃ q, p = q ++ ".pt".data) → parse_epoch p = .error PyError.assertionError)
    ∧ (∀ q, p = q ++ ".pt".data → '_' ∉ q → parse_epoch p = .error PyError.indexError)
    ∧ (∀ q num, p = q ++ ".pt".data → afterLastUnderscore q = some num →
        pyIntOfChars num = none → parse_epoch p = .error PyError.valueError) := by
  refine ⟨parse_epoch_not_pt, ?_, ?_⟩
  · rintro q rfl hq
    rw [parse_epoch_eq, afterLastUnderscore, if_neg hq]
  · rintro q num rfl h1 h2
    rw [parse_epoch_eq]
    simp only [h1, h2]

/-- C2 witness: the amended theorem applied at concrete paths covering all
three hypothesised cases. -/
theorem c2_witness :
    parse_epoch "model".data = .error PyError.assertionError
    ∧ parse_epoch "model.pt".data = .error PyError.indexError
    ∧ parse_epoch "model_x.pt".data = .error PyError.valueError := by
  refine ⟨(c2_parse_epoch_errors _).1 ?_,
    (c2_parse_epoch_errors _).2.1 "model".data rfl (by decide),
    (c2_parse_epoch_errors _).2.2 "model_x".data "x".data rfl rfl rfl⟩
  rintro ⟨q, hq⟩
  have hlen : q.length = 2 := by
    have h5 := congrArg List.length hq
    simp at h5
    omega
  have hdrop : List.drop 2 (q ++ ".pt".data) = ".pt".data := by
    rw [← hlen]
    exact List.drop_left q _
  rw [← hq] at hdrop
  exact absurd hdrop (by decide)

/-- C3: when `resume_checkpoint` is a non-empty path whose epoch parses,
`main` loads the model state from that checkpoint and passes
`parse_epoch` of it as the starting epoch to `run_loop`; when
`resume_checkpoint` is the empty string, no checkpoint is loaded and the
starting epoch passed to `run_loop` is `0`. -/
theorem c3_resume (a : Args) (umk uck mdk dk tk : List String) (im : List Char)
    (hds : defaultImLookup a.dataset = some im) :
    (a.resume_checkpoint = [] →
      (mainRun a umk uck mdk dk tk).loaded_checkpoint = none ∧
      ∃ r, (mainRun a umk uck mdk dk tk).outcome = .ok r ∧ r.start_epoch = 0)
    ∧ (∀ e : Int, a.resume_checkpoint ≠ [] → parse_epoch a.resume_checkpoint = .ok e →
      (mainRun a umk uck mdk dk tk).loaded_checkpoint = some a.resume_checkpoint ∧
      ∃ r, (mainRun a umk uck mdk dk tk).outcome = .ok r ∧ r.start_epoch = e) := by
  constructor
  · intro h
    exact ⟨by simp [mainRun, hds, h],
      ⟨⟨saveDescOf a, 0, a.p_uncond, im⟩, by simp [mainRun, hds, h], rfl⟩⟩
  · intro e h hp
    have hlen : 0 < a.resume_checkpoint.length := List.length_pos.mpr h
    exact ⟨by simp [mainRun, hds, hlen, hp],
      ⟨⟨saveDescOf a, e, a.p_uncond, im⟩, by simp [mainRun, hds, hlen, hp], rfl⟩⟩

/-- C3 witness: resuming from `model_250.pt` on the `clevr` dataset loads
that checkpoint and starts the loop at epoch 250. -/
theorem c3_witness :
    (mainRun sampleArgs [] [] [] [] []).loaded_checkpoint = some "model_250.pt".data ∧
    ∃ r, (mainRun sampleArgs [] [] [] [] []).outcome = .ok r ∧ r.start_epoch = 250 :=
  (c3_resume sampleArgs [] [] [] [] [] _ rfl).2 250 (by decide) rfl

/-- C4: whatever else happens, `main` writes exactly one JSON artifact,
named `arguments.json`, into the run's log directory, before training
begins (the artifact trace precedes the `run_loop` outcome by
construction), and the set of keys recorded in it is exactly the union of
the selected model defaults, the diffusion defaults, and the training
defaults key sets. -/
theorem c4_arguments_json (a : Args) (umk uck mdk dk tk : List String) :
    ∃ keys, (mainRun a umk uck mdk dk tk).artifacts = [⟨"arguments.json".data, keys⟩] ∧
      keys.toFinset = (trainingModelKeys a.model_desc umk uck mdk).toFinset
        ∪ dk.toFinset ∪ tk.toFinset := by
  refine ⟨trainingModelKeys a.model_desc umk uck mdk ++ dk ++ tk, ?_, ?_⟩
  · unfold mainRun
    cases defaultImLookup a.dataset with
    | none => rfl
    | some im =>
      by_cases h : 0 < a.resume_checkpoint.length
      · simp only [h, if_true]
        cases parse_epoch a.resume_checkpoint with
        | error e => rfl
        | ok epoch => rfl
      · simp only [h, if_false]
  · simp [List.toFinset_append, Finset.union_assoc]

/-- C10: the save description gets the `'_free'` tag appended exactly when
the classifier-free-guidance drop probability `p_uncond` is strictly
positive (stated for an empty `extra_desc`, so that the tag is also the
final suffix; with a nonempty `extra_desc` the tag is followed by
`'_' + extra_desc`), and when no `log_folder` argument is given the log
directory is exactly `'logs_'` followed by the save description. -/
theorem c10_save_desc (a : Args) (umk uck mdk dk tk : List String) :
    (a.extra_desc = [] →
      ((∃ pre, (mainRun a umk uck mdk dk tk).save_desc = pre ++ "_free".data)
        ↔ 0 < a.p_uncond))
    ∧ (0 < a.p_uncond →
      (mainRun a umk uck mdk dk tk).save_desc
        = (baseDescOf a ++ "_free".data)
          ++ (if 0 < a.extra_desc.length then "_".data ++ a.extra_desc else []))
    ∧ (a.log_folder = none →
      (mainRun a umk uck mdk dk tk).log_folder
        = "logs_".data ++ (mainRun a umk uck mdk dk tk).save_desc) := by
  have hsd : (mainRun a umk uck mdk dk tk).save_desc = saveDescOf a := by
    unfold mainRun
    cases defaultImLookup a.dataset with
    | none => rfl
    | some im =>
      by_cases h : 0 < a.resume_checkpoint.length
      · simp only [h, if_true]
        cases parse_epoch a.resume_checkpoint with
        | error e => rfl
        | ok epoch => rfl
      · simp only [h, if_false]
  have hlf : (mainRun a umk uck mdk dk tk).log_folder = logFolderOf a := by
    unfold mainRun
    cases defaultImLookup a.dataset with
    | none => rfl
    | some im =>
      by_cases h : 0 < a.resume_checkpoint.length
      · simp only [h, if_true]
        cases parse_epoch a.resume_checkpoint with
        | error e => rfl
        | ok epoch => rfl
      · simp only [h, if_false]
  refine ⟨?_, ?_, ?_⟩
  · intro hext
    rw [hsd]
    constructor
    · rintro ⟨pre, hpre⟩
      by_contra hp
      rw [saveDescOf, if_neg hp, hext] at hpre
      simp only [List.length_nil, lt_self_iff_false, if_false] at hpre
      obtain ⟨c, hc, hcd⟩ := intDecimal_getLast? a.num_run
      have h1 : (baseDescOf a).getLast? = some c := by
        simp [baseDescOf, List.getLast?_append, List.getLast?_cons, hc]
      have h2 : (baseDescOf a).getLast? = some 'e' := by
        rw [hpre]
        simp [List.getLast?_append, List.getLast?_cons]
      rw [h1] at h2
      have hce : c = 'e' := Option.some_inj.mp h2
      rw [hce] at hcd
      exact absurd hcd (by decide)
    · intro hp
      refine ⟨baseDescOf a, ?_⟩
      rw [saveDescOf, if_pos hp, hext]
      simp
  · intro hp
    rw [hsd, saveDescOf, if_pos hp]
    by_cases he : 0 < a.extra_desc.length
    · simp [he, List.append_assoc]
    · simp [he]
  · intro hlog
    rw [hlf, hsd, logFolderOf, hlog]

/-- C10 witness: with `p_uncond = 1` (and default empty `extra_desc`, no
`log_folder` argument) the save description ends in `'_free'` and the log
directory is `'logs_' + save_desc`. -/
theorem c10_witness :
    (∃ pre, (mainRun { sampleArgs with p_uncond := 1 } [] [] [] [] []).save_desc
      = pre ++ "_free".data)
    ∧ (mainRun { sampleArgs with p_uncond := 1 } [] [] [] [] []).log_folder
      = "logs_".data ++ (mainRun { sampleArgs with p_uncond := 1 } [] [] [] [] []).save_desc :=
  ⟨((c10_save_desc { sampleArgs with p_uncond := 1 } [] [] [] [] []).1 rfl).mpr (by norm_num),
    (c10_save_desc { sampleArgs with p_uncond := 1 } [] [] [] [] []).2.2 rfl⟩

/-- C7: the EMA shadow update with decay rate `1.0` is the identity on the
shadow, for every parameter set and over any number of update steps. -/
theorem c7_ema_decay_one (ι : Type) (shadow : ι → ℚ) (params : List (ι → ℚ)) :
    emaRun ι 1 shadow params = shadow := by
  induction params generalizing shadow with
  | nil => rfl
  | cons p ps ih =>
    have h : emaUpdate ι 1 shadow p = shadow := by
      funext i
      simp [emaUpdate]
    calc emaRun ι 1 shadow (p :: ps)
        = emaRun ι 1 (emaUpdate ι 1 shadow p) ps := rfl
      _ = emaRun ι 1 shadow ps := by rw [h]
      _ = shadow := ih shadow

/-- C8: module load seeds both the torch and the numpy random number
generators to the fixed value 0, so after initialization the generator
state is independent of its prior state, and any deterministic drawing
procedure yields identical random sequences on two executions. -/
theorem c8_seed_determinism :
    (∀ s : RngState, (moduleInit s).torch_seed = some 0
      ∧ (moduleInit s).numpy_seed = some 0)
    ∧ (∀ (α : Type) (draw : RngState → α) (s₁ s₂ : RngState),
      draw (moduleInit s₁) = draw (moduleInit s₂)) :=
  ⟨fun _ => ⟨rfl, rfl⟩, fun _ _ _ _ => rfl⟩

theorem betaLin_eq {T : Nat} (hT : 2 ≤ T) (t : Nat) :
    betaLin T t = ((T : ℚ) - 1 + 199 * t) / (10000 * ((T : ℚ) - 1)) := by
  have hτ : (2:ℚ) ≤ (T : ℚ) := by exact_mod_cast hT
  have h1 : (T : ℚ) - 1 ≠ 0 := by linarith
  unfold betaLin
  field_simp
  ring

theorem betaLin_pos {T t : Nat} (hT : 1 ≤ T) (ht : t < T) : 0 < betaLin T t := by
  rcases Nat.lt_or_ge T 2 with h2 | h2
  · have hT1 : T = 1 := by omega
    have ht0 : t = 0 := by omega
    subst hT1
    subst ht0
    norm_num [betaLin]
  · rw [betaLin_eq h2]
    have hτ : (2:ℚ) ≤ (T : ℚ) := by exact_mod_cast h2
    have ht0 : (0:ℚ) ≤ (t : ℚ) := Nat.cast_nonneg t
    apply div_pos
    · nlinarith
    · nlinarith

theorem betaLin_lt_one {T t : Nat} (hT : 1 ≤ T) (ht : t < T) : betaLin T t < 1 := by
  rcases Nat.lt_or_ge T 2 with h2 | h2
  · have hT1 : T = 1 := by omega
    have ht0 : t = 0 := by omega
    subst hT1
    subst ht0
    norm_num [betaLin]
  · rw [betaLin_eq h2]
    have hτ : (2:ℚ) ≤ (T : ℚ) := by exact_mod_cast h2
    have htτ : (t : ℚ) ≤ (T : ℚ) - 1 := by
      have h1 : (t:ℚ) + 1 ≤ (T : ℚ) := by exact_mod_cast ht
      linarith
    have ht0 : (0:ℚ) ≤ (t : ℚ) := Nat.cast_nonneg t
    have h3 : (0:ℚ) < 10000 * ((T : ℚ) - 1) := by nlinarith
    rw [div_lt_one h3]
    nlinarith [mul_le_mul_of_nonneg_left htτ (by norm_num : (0:ℚ) ≤ 199)]

theorem alphaBarQ_pos {T : Nat} (hT : 1 ≤ T) {t : Nat} (ht : t < T) :
    0 < alphaBarQ T t := by
  apply Finset.prod_pos
  intro s hs
  have hsT : s < T := lt_of_lt_of_le (Finset.mem_range.mp hs) (Nat.succ_le_of_lt ht)
  have := betaLin_lt_one hT hsT
  linarith

theorem alphaBarQ_succ (T t : Nat) :
    alphaBarQ T (t + 1) = alphaBarQ T t * (1 - betaLin T (t + 1)) :=
  Finset.prod_range_succ _ _

theorem alphaBarQ_anti {T : Nat} (hT : 1 ≤ T) {t : Nat} (ht : t + 1 < T) :
    alphaBarQ T (t + 1) < alphaBarQ T t := by
  rw [alphaBarQ_succ]
  have h0 := alphaBarQ_pos hT (by omega : t < T)
  have h1 := betaLin_pos hT ht
  exact mul_lt_of_lt_one_right h0 (by linarith)

theorem alphaBars_chain {T : Nat} (hT : 1 ≤ T) :
    ((List.range T).map (fun t => alphaBarQ T t)).Chain' (fun x y => x > y) := by
  rw [List.chain'_map]
  obtain ⟨k, rfl⟩ : ∃ k, T = k + 1 := ⟨T - 1, by omega⟩
  rw [List.chain'_range_succ]
  intro m hm
  exact alphaBarQ_anti hT (by omega)

theorem alphaBarQ_1000_zero : alphaBarQ 1000 0 = 9999 / 10000 := by
  unfold alphaBarQ
  rw [Finset.prod_range_one, betaLin_eq (by norm_num)]
  push_cast
  norm_num

theorem one_sub_betaLin_1000 (s : Nat) (hs : s ≤ 999) :
    1 - betaLin 1000 s = ((9989001 - 199 * s : Nat) : ℚ) / 9990000 := by
  rw [betaLin_eq (by norm_num)]
  have hle : 199 * s ≤ 9989001 := by omega
  have h1 : ((9989001 - 199 * s : Nat) : ℚ) = 9989001 - 199 * (s : ℚ) := by
    push_cast [hle]
    ring
  rw [h1]
  push_cast
  field_simp
  ring

theorem alphaBarProd_1000 :
    ∀ n, n ≤ 1000 →
      ∏ s ∈ Finset.range n, (1 - betaLin 1000 s)
        = (schedProdN n : ℚ) / 9990000 ^ n := by
  intro n
  induction n with
  | zero => intro _; simp [schedProdN]
  | succ k ih =>
    intro hk
    rw [Finset.prod_range_succ, ih (by omega), one_sub_betaLin_1000 k (by omega),
      pow_succ, div_mul_div_comm,
      show schedProdN (k + 1) = schedProdN k * (9989001 - 199 * k) from rfl]
    push_cast
    ring

set_option maxRecDepth 100000 in
theorem schedProdN_lt : schedProdN 1000 * 1000 < 9990000 ^ 1000 := by decide

theorem alphaBarQ_1000_last : alphaBarQ 1000 999 < 1 / 1000 := by
  have h2 : alphaBarQ 1000 999 = (schedProdN 1000 : ℚ) / 9990000 ^ 1000 :=
    alphaBarProd_1000 1000 (le_refl _)
  rw [h2, div_lt_div_iff (by positivity) (by norm_num), one_mul]
  exact_mod_cast schedProdN_lt

set_option maxRecDepth 100000 in
/-- C5: every schedule the constructor accepts — any kind, any step count —
is the `linear` kind with a valid `T ≥ 1` and a cumulative-product array of
length `T` that is strictly decreasing; conversely, for every valid step
count `T ≥ 1` the `linear` constructor succeeds with such an array (unknown
kinds and `T = 0` take the `InvalidScheduleError` path); and for `T = 1000`
the array has length 1000, is strictly decreasing, starts above `0.999` and
ends below `0.001`. -/
theorem c5_schedule :
    (∀ (kind : List Char) (T : Nat) (l : List ℚ), createSchedule kind T = .ok l →
        kind = "linear".data ∧ 1 ≤ T ∧ l.length = T ∧ l.Chain' (fun x y => x > y))
    ∧ (∀ T : Nat, 1 ≤ T →
        ∃ l, createSchedule "linear".data T = .ok l ∧ l.length = T
          ∧ l.Chain' (fun x y => x > y))
    ∧ (∃ l, createSchedule "linear".data 1000 = .ok l ∧ l.length = 1000
        ∧ l.Chain' (fun x y => x > y)
        ∧ l[0]? = some (alphaBarQ 1000 0) ∧ (999/1000 : ℚ) < alphaBarQ 1000 0
        ∧ l[999]? = some (alphaBarQ 1000 999)
        ∧ alphaBarQ 1000 999 < (1/1000 : ℚ)) := by
  refine ⟨?_, ?_, ?_⟩
  · intro kind T l hok
    unfold createSchedule at hok
    by_cases hk : kind = "linear".data
    · rw [if_pos hk] at hok
      unfold linearAlphaBars at hok
      by_cases hT : T = 0
      · rw [if_pos hT] at hok
        simp at hok
      · rw [if_neg hT] at hok
        obtain rfl : (List.range T).map (fun t => alphaBarQ T t) = l :=
          Except.ok.inj hok
        exact ⟨hk, by omega, by simp, alphaBars_chain (by omega)⟩
    · rw [if_neg hk] at hok
      simp at hok
  · intro T hT
    refine ⟨(List.range T).map (fun t => alphaBarQ T t), ?_, by simp,
      alphaBars_chain hT⟩
    unfold createSchedule linearAlphaBars
    rw [if_pos rfl, if_neg (by omega)]
  · refine ⟨(List.range 1000).map (fun t => alphaBarQ 1000 t), ?_,
      by rw [List.length_map, List.length_range],
      alphaBars_chain (by norm_num), ?_, ?_, ?_, alphaBarQ_1000_last⟩
    · unfold createSchedule linearAlphaBars
      rw [if_pos rfl, if_neg (by norm_num)]
    · rw [List.getElem?_map, List.getElem?_range (by norm_num)]
      rfl
    · rw [alphaBarQ_1000_zero]
      norm_num
    · rw [List.getElem?_map, List.getElem?_range (by norm_num)]
      rfl

set_option maxRecDepth 100000 in
/-- C5 witness: the parts of the schedule theorem with hypotheses, applied
concretely — the accepted-schedule conjunct at kind `linear`, `T = 5`
(the constructor call discharged by evaluation), and the valid-`T`
conjunct at `T = 1000`. -/
theorem c5_witness :
    ("linear".data = "linear".data ∧ 1 ≤ 5
      ∧ ((List.range 5).map (fun t => alphaBarQ 5 t)).length = 5
      ∧ ((List.range 5).map (fun t => alphaBarQ 5 t)).Chain' (fun x y => x > y))
    ∧ (1 ≤ 1000 ∧ ∃ l, createSchedule "linear".data 1000 = .ok l
        ∧ l.length = 1000 ∧ l.Chain' (fun x y => x > y)) :=
  ⟨c5_schedule.1 "linear".data 5 ((List.range 5).map (fun t => alphaBarQ 5 t)) rfl,
    ⟨by norm_num, c5_schedule.2.1 1000 (by norm_num)⟩⟩

/-- C6: for every clean input `x0`, timestep `t` and injected noise `ε`,
forward noising followed by the reverse step's clean-input reconstruction
using the exact injected noise as the model prediction recovers `x0`
(exactly, in the real-number model), provided `ᾱ_t > 0` (true for every
timestep of a valid schedule). -/
theorem c6_noise_denoise_roundtrip (T t : Nat) (x0 eps : ℝ)
    (h : 0 < alphaBarQ T t) :
    predXstartFromEps T t (noiseFwd T t x0 eps) eps = x0 := by
  have h0 : (0:ℝ) < ((alphaBarQ T t : ℚ) : ℝ) := by exact_mod_cast h
  have hs : Real.sqrt ((alphaBarQ T t : ℚ) : ℝ) ≠ 0 :=
    ne_of_gt (Real.sqrt_pos.mpr h0)
  unfold predXstartFromEps noiseFwd
  rw [add_sub_cancel_right, mul_comm, mul_div_assoc, div_self hs, mul_one]

/-- C6 witness: the round trip at `T = 1000`, `t = 0`, `x0 = 2`, `ε = 3`,
with the positivity hypothesis discharged by computing `ᾱ_0 = 0.9999`. -/
theorem c6_witness :
    0 < alphaBarQ 1000 0
    ∧ predXstartFromEps 1000 0 (noiseFwd 1000 0 2 3) 3 = 2 := by
  have h : 0 < alphaBarQ 1000 0 := by
    rw [alphaBarQ_1000_zero]
    norm_num
  exact ⟨h, c6_noise_denoise_roundtrip 1000 0 2 3 h⟩
